import Mathlib

/-!
A shallow embedding of the `Grubre/assembler` translation pipeline
(lexer → parser → checker/encoder → label resolver), translated from the
Rust sources, together with theorems settling the specification claims.

Conventions used throughout:
* Rust machine integers are modelled as `Int`/`Nat` with explicit `% 2^w`
  at the points where the source performs a truncating cast (`as u8`,
  `as u16`).
* Fallible Rust code (`Result`) is modelled with `Except`; Rust code that
  can panic (`unwrap`, `unreachable!`) is additionally wrapped in
  `Option`, with `none` standing for the panic.
* `HashMap` is modelled as an association list whose `insert` prepends,
  so that lookup (first match) realises the overwrite semantics.
-/

deriving instance DecidableEq for Except

namespace Assembler

/-! ## Diagnostics core: `Span` (src/token.rs)

`Span { line: usize, chars: Range<usize> }`; the half-open character
range `chars` is flattened into the two fields `first` and `stop`. -/

structure Span where
  line : Nat
  first : Nat
  stop : Nat
  deriving DecidableEq, Repr

/-- Rust `impl Add for Span` (src/token.rs, lines 20-28):
`start = min(self.chars.start, rhs.chars.start)`,
`end = max(self.chars.end, rhs.chars.end)`, `Span::new(rhs.line, start..end)`. -/
def spanAdd (a b : Span) : Span :=
  { line := b.line
    first := min a.first b.first
    stop := max a.stop b.stop }

/-! ## Binary rendering helpers

`format!("{:08b}", v)` on an unsigned value renders the binary digits,
most-significant bit first, left-padded with `'0'` to a minimum width of
8 characters (it never truncates: values of 256 or more render to more
than 8 characters). -/

/-- Binary digits of `n`, most significant first; `[]` for `0`.
Structural recursion on a fuel argument so that concrete evaluation
reduces in the kernel; the fuel is always given as an upper bound of `n`. -/
def binAux : Nat → Nat → List Char
  | 0, _ => []
  | fuel + 1, n =>
    if n = 0 then []
    else binAux fuel (n / 2) ++ [if n % 2 = 1 then '1' else '0']

/-- Rust `format!("{:b}", n)` for an unsigned `n`: `"0"` for zero,
otherwise the most-significant-first binary digits. -/
def binRepr (n : Nat) : List Char :=
  if n = 0 then ['0'] else binAux (n + 1) n

/-- Rust `format!("{:08b}", n)` for an unsigned `n`: left-pad `binRepr`
with `'0'` to a minimum width of 8. -/
def fmt08b (n : Nat) : String :=
  ⟨List.replicate (8 - (binRepr n).length) '0' ++ binRepr n⟩

/-- Rust `format!("{:08b}", x)` for `x : i8`: the 8-bit two's-complement
pattern of `x`, i.e. the binary rendering of `x mod 256`. -/
def fmt08bI8 (x : Int) : String :=
  fmt08b (x % 256).toNat

/-- A character list is an 8-character bit-string (each char `'0'`/`'1'`). -/
def isBits8 (s : List Char) : Prop :=
  s.length = 8 ∧ ∀ c ∈ s, c = '0' ∨ c = '1'

instance (s : List Char) : Decidable (isBits8 s) := by
  unfold isBits8; infer_instance

theorem binAux_length_le (fuel : Nat) :
    ∀ n k, n ≤ fuel → ((binAux fuel n).length ≤ k ↔ n < 2 ^ k) := by
  induction fuel with
  | zero =>
    intro n k hn
    interval_cases n
    simp only [binAux, List.length_nil, Nat.zero_le, true_iff]
    exact Nat.two_pow_pos k
  | succ fuel ih =>
    intro n k hn
    by_cases h0 : n = 0
    · subst h0
      simp only [binAux, List.length_nil, if_true, Nat.zero_le, true_iff]
      exact Nat.two_pow_pos k
    · have h2 : (0 : Nat) < 2 := by norm_num
      have hdiv : n / 2 ≤ fuel := by omega
      have hiff := ih (n / 2) k hdiv
      cases k with
      | zero =>
        simp only [binAux, h0, if_false, List.length_append, List.length_cons,
          List.length_nil, pow_zero]
        omega
      | succ k =>
        have hiff := ih (n / 2) k hdiv
        simp only [binAux, h0, if_false, List.length_append, List.length_cons,
          List.length_nil]
        constructor
        · intro hlen
          have hlk : (binAux fuel (n / 2)).length ≤ k := by omega
          have hd := hiff.mp hlk
          rw [Nat.div_lt_iff_lt_mul h2] at hd
          calc n < 2 ^ k * 2 := hd
            _ = 2 ^ (k + 1) := by ring
        · intro hlt
          have hd : n / 2 < 2 ^ k := by
            rw [Nat.div_lt_iff_lt_mul h2]
            calc n < 2 ^ (k + 1) := hlt
              _ = 2 ^ k * 2 := by ring
          have := hiff.mpr hd
          omega

theorem binAux_mem (fuel : Nat) :
    ∀ n c, c ∈ binAux fuel n → c = '0' ∨ c = '1' := by
  induction fuel with
  | zero => intro n c h; simp [binAux] at h
  | succ fuel ih =>
    intro n c h
    by_cases h0 : n = 0
    · subst h0; simp [binAux] at h
    · simp only [binAux, h0, if_false, List.mem_append, List.mem_singleton] at h
      rcases h with h | h
      · exact ih _ _ h
      · subst h
        by_cases hb : n % 2 = 1 <;> simp [hb]

theorem binRepr_length_le (n k : Nat) :
    (binRepr n).length ≤ k + 1 ↔ n < 2 ^ (k + 1) := by
  by_cases h0 : n = 0
  · subst h0
    simp only [binRepr, if_true, List.length_cons, List.length_nil, true_iff]
    constructor
    · intro _
      exact Nat.two_pow_pos (k + 1)
    · intro _
      omega
  · simp only [binRepr, h0, if_false]
    exact binAux_length_le (n + 1) n (k + 1) (by omega)

theorem binRepr_mem (n : Nat) (c : Char) (h : c ∈ binRepr n) :
    c = '0' ∨ c = '1' := by
  by_cases h0 : n = 0
  · subst h0; simp [binRepr] at h; simp [h]
  · simp only [binRepr, h0, if_false] at h
    exact binAux_mem _ _ _ h

theorem binRepr_length_pos (n : Nat) : 0 < (binRepr n).length := by
  by_cases h0 : n = 0
  · simp [binRepr, h0]
  · simp only [binRepr, h0, if_false]
    cases hn : n with
    | zero => omega
    | succ m =>
      simp [binAux, h0]

/-- The 8-character padded rendering has length 8 precisely for values
below 256; larger values render to strictly more than 8 characters. -/
theorem fmt08b_length (n : Nat) :
    (fmt08b n).length = max 8 (binRepr n).length := by
  simp only [fmt08b, String.length]
  simp only [List.length_append, List.length_replicate]
  omega

theorem fmt08b_mem (n : Nat) (c : Char) (h : c ∈ (fmt08b n).data) :
    c = '0' ∨ c = '1' := by
  simp only [fmt08b, List.mem_append, List.mem_replicate] at h
  rcases h with h | h
  · exact Or.inl h.2
  · exact binRepr_mem n c h

/-- Exactly-8-bit-string characterisation of the padded rendering. -/
theorem fmt08b_isBits8 (n : Nat) : isBits8 (fmt08b n).data ↔ n < 256 := by
  constructor
  · intro ⟨hlen, _⟩
    have h8 : (binRepr n).length ≤ 8 := by
      have := fmt08b_length n
      simp only [String.length] at this
      omega
    have := (binRepr_length_le n 7).mp h8
    simpa using this
  · intro hn
    refine ⟨?_, fun c hc => fmt08b_mem n c hc⟩
    have h8 : (binRepr n).length ≤ 8 := (binRepr_length_le n 7).mpr (by simpa using hn)
    have := fmt08b_length n
    simp only [String.length] at this ⊢
    omega

/-! ## Lexer (src/lexer.rs)

Token kinds, the regex table of `create_patterns`, and `tokenize`.
Each regex of `create_patterns` is modelled as a prefix matcher on the
line's character list: it returns the capture-group-1 content together
with the end offset of the whole match (`word.get(0).unwrap().end()`),
or `none` when the anchored pattern does not match. -/

namespace Lex

inductive TokenType where
  | Mnemonic
  | Register
  | Number
  | MemAddress
  | Label
  | LabelRef
  | LabelAddressRef
  | Comment
  | Byte
  deriving DecidableEq, Repr

structure Token where
  token_type : TokenType
  content : String
  span : Span
  deriving DecidableEq, Repr

/-- Error kinds of the pipeline built on this lexer: `LexerErr::UnknownToken`
(src/lexer.rs), `ParseErr` (src/parser.rs) and `ResolveErr::UnknownLabel`
(src/resolver.rs), flattened into one sum since every one of them is
carried through the shared span-tagged `Error` wrapper. -/
inductive ErrKind where
  | UnknownToken
  | NoMapping
  | NotAnArg
  | WrongFirst
  | NotANumber
  | EmptyLine
  | UnknownLabel
  deriving DecidableEq, Repr

/-- Span-tagged error, as produced by `WithSpan::with_span`. -/
structure Error where
  kind : ErrKind
  span : Span
  deriving DecidableEq, Repr

/-- A modelled regex: anchored prefix matcher returning
(capture group 1, end of whole match). -/
def Matcher : Type := List Char → Option (List Char × Nat)

/-- Whitespace inside a line (the inputs of interest contain only spaces
and tabs, which is what the `\s` class can see once `lines()` has removed
the newlines). -/
def isWsChar (c : Char) : Bool :=
  c == ' ' || c == '\t'

/-- The regex fragment `(\s|\n|$)`: matches at end of input (consuming 0
characters) or before a whitespace character (consuming 1). -/
def wsOrEnd : List Char → Option Nat
  | [] => some 0
  | c :: _ => if isWsChar c then some 1 else none

/-- Case-insensitive literal prefix test (the pattern is given in upper
case, as the `(?i)` alternations of the mnemonic regex are). -/
def matchCI : List Char → List Char → Bool
  | [], _ => true
  | _ :: _, [] => false
  | p :: ps, c :: cs => (c.toUpper == p) && matchCI ps cs

/-- Case-sensitive literal prefix test. -/
def matchCS : List Char → List Char → Bool
  | [], _ => true
  | _ :: _, [] => false
  | p :: ps, c :: cs => (c == p) && matchCS ps cs

/-- Alternation of case-insensitive literals, each followed by
`(\s|\n|$)`; leftmost-first alternative preference as in the regex crate.
The group-1 content is the text as it appears in the input. -/
def matchAltCIWs (alts : List (List Char)) (s : List Char) :
    Option (List Char × Nat) :=
  match alts with
  | [] => none
  | a :: rest =>
    if matchCI a s then
      match wsOrEnd (s.drop a.length) with
      | some w => some (s.take a.length, a.length + w)
      | none => matchAltCIWs rest s
    else matchAltCIWs rest s

/-- Alternation of case-sensitive literals, each followed by `(\s|\n|$)`. -/
def matchAltCSWs (alts : List (List Char)) (s : List Char) :
    Option (List Char × Nat) :=
  match alts with
  | [] => none
  | a :: rest =>
    if matchCS a s then
      match wsOrEnd (s.drop a.length) with
      | some w => some (s.take a.length, a.length + w)
      | none => matchAltCSWs rest s
    else matchAltCSWs rest s

/-- Regex `(?i)^(NOP|MOV|PUSH|POP|JMP|ADD|SUB|OR|AND|NEG|INV|SHR|SHL|CMP|HALT)(\s|\n|$)`. -/
def mnemonicMatcher : Matcher :=
  matchAltCIWs
    (["NOP", "MOV", "PUSH", "POP", "JMP", "ADD", "SUB", "OR", "AND", "NEG",
      "INV", "SHR", "SHL", "CMP", "HALT"].map String.data)

/-- Regex `^(A|B|F)(\s|\n|$)`. -/
def registerMatcher : Matcher :=
  matchAltCSWs (["A", "B", "F"].map String.data)

/-- Regex `^(byte)(\s|\n|$)`. -/
def byteMatcher : Matcher :=
  matchAltCSWs (["byte"].map String.data)

def isHexDigit (c : Char) : Bool :=
  c.isDigit || (('a' ≤ c) && (c ≤ 'f')) || (('A' ≤ c) && (c ≤ 'F'))

def isBinDigit (c : Char) : Bool :=
  c == '0' || c == '1'

def isOctDigit (c : Char) : Bool :=
  ('0' ≤ c) && (c ≤ '7')

/-- Maximal nonempty run of characters satisfying `p` (a greedy `+`). -/
def run1 (p : Char → Bool) (s : List Char) : Option (List Char × List Char) :=
  match s.takeWhile p with
  | [] => none
  | r => some (r, s.drop r.length)

/-- One alternative of the number regex: an optional minus (when
`allowNeg`), the literal `pre`, then a nonempty greedy digit run. The
whole alternative is also the capture group. -/
def numAlt (allowNeg : Bool) (pre : List Char) (p : Char → Bool)
    (s : List Char) : Option (List Char × Nat) :=
  let (sign, s1) :=
    match s with
    | '-' :: rest => if allowNeg then (['-'], rest) else (([] : List Char), s)
    | _ => (([] : List Char), s)
  if pre.isPrefixOf s1 then
    match run1 p (s1.drop pre.length) with
    | some (r, _) =>
      let content := sign ++ pre ++ r
      some (content, content.length)
    | none => none
  else none

/-- Regex `^(-?0x[0-9A-Fa-f]+|0b[01]+|-?0o[0-7]+|-?[0-9]+)`:
leftmost-first alternative preference, greedy digit runs. -/
def numberMatcher : Matcher := fun s =>
  (numAlt true ['0', 'x'] isHexDigit s).orElse fun _ =>
  (numAlt false ['0', 'b'] isBinDigit s).orElse fun _ =>
  (numAlt true ['0', 'o'] isOctDigit s).orElse fun _ =>
  numAlt true [] Char.isDigit s

def isIdentStart (c : Char) : Bool :=
  c.isAlpha || c == '_'

def isIdentChar (c : Char) : Bool :=
  c.isAlphanum || c == '_'

/-- The identifier fragment `[a-zA-Z_][a-zA-Z0-9_]*`: returns the
identifier and the remainder. -/
def identRun : List Char → Option (List Char × List Char)
  | [] => none
  | c :: rest =>
    if isIdentStart c then
      let r := rest.takeWhile isIdentChar
      some (c :: r, rest.drop r.length)
    else none

/-- Regex `^([a-zA-Z_][a-zA-Z0-9_]*):` (group excludes the colon, the
whole match includes it). -/
def labelMatcher : Matcher := fun s =>
  match identRun s with
  | some (idr, ':' :: _) => some (idr, idr.length + 1)
  | _ => none

/-- Regex `^#([a-zA-Z_][a-zA-Z0-9_]*)(\s|\n|$)`. -/
def labelRefMatcher : Matcher := fun s =>
  match s with
  | '#' :: rest =>
    match identRun rest with
    | some (idr, after) =>
      match wsOrEnd after with
      | some w => some (idr, idr.length + 1 + w)
      | none => none
    | none => none
  | _ => none

/-- Regex `^\[#([a-zA-Z_][a-zA-Z0-9_]*)\](\s|\n|$)`. -/
def labelAddressRefMatcher : Matcher := fun s =>
  match s with
  | '[' :: '#' :: rest =>
    match identRun rest with
    | some (idr, ']' :: after) =>
      match wsOrEnd after with
      | some w => some (idr, idr.length + 3 + w)
      | none => none
    | _ => none
  | _ => none

/-- The bracketed-number core `(0x[0-9A-Fa-f]+|0b[01]+|0o[0-7]+|[0-9]+)`
(no minus sign in any alternative). -/
def memNumCore (s : List Char) : Option (List Char × Nat) :=
  (numAlt false ['0', 'x'] isHexDigit s).orElse fun _ =>
  (numAlt false ['0', 'b'] isBinDigit s).orElse fun _ =>
  (numAlt false ['0', 'o'] isOctDigit s).orElse fun _ =>
  numAlt false [] Char.isDigit s

/-- Regex `^\[(0x[0-9A-Fa-f]+|0b[01]+|0o[0-7]+|[0-9]+)\](\s|\n|$)`. -/
def memAddressMatcher : Matcher := fun s =>
  match s with
  | '[' :: rest =>
    match memNumCore rest with
    | some (num, nlen) =>
      match rest.drop nlen with
      | ']' :: after =>
        match wsOrEnd after with
        | some w => some (num, nlen + 2 + w)
        | none => none
      | _ => none
    | none => none
  | _ => none

/-- Regex `^;(.*)$`: a whole-line comment; group 1 is everything after
the semicolon. -/
def commentMatcher : Matcher := fun s =>
  match s with
  | ';' :: rest => some (rest, s.length)
  | _ => none

/-- The pattern table of `create_patterns` (src/lexer.rs, lines 48-86),
in source order. -/
def create_patterns : List (TokenType × Matcher) :=
  [(TokenType.Mnemonic, mnemonicMatcher),
   (TokenType.Register, registerMatcher),
   (TokenType.Number, numberMatcher),
   (TokenType.MemAddress, memAddressMatcher),
   (TokenType.Label, labelMatcher),
   (TokenType.LabelRef, labelRefMatcher),
   (TokenType.LabelAddressRef, labelAddressRefMatcher),
   (TokenType.Comment, commentMatcher),
   (TokenType.Byte, byteMatcher)]

/-- The inner `for (token_type, pattern) in patterns` loop: the first
pattern in table order that matches wins. -/
def firstMatch (ps : List (TokenType × Matcher)) (s : List Char) :
    Option (TokenType × List Char × Nat) :=
  match ps with
  | [] => none
  | (tt, m) :: rest =>
    match m s with
    | some (content, wlen) => some (tt, content, wlen)
    | none => firstMatch rest s

/-- The `while !line_ref.is_empty()` scanner loop of `tokenize`
(src/lexer.rs, lines 101-136), for one line.
`i` is the line index, `acc` the running character offset
(`char_index_accumulator`). On a match, the token's span covers the whole
match (including a trailing whitespace consumed by the pattern), and the
following whitespace is skipped; on no match, the chunk up to the first
space becomes an `UnknownToken` error and scanning continues after that
space. The fuel argument makes the recursion structural; the caller
passes (length + 1), which cannot run out as long as every pattern match
consumes at least one character — the concrete patterns of
`create_patterns` all do, while a zero-width match would make the Rust
while-loop spin forever. -/
def scanLine (ps : List (TokenType × Matcher)) (i : Nat) :
    Nat → Nat → List Char → List Token × List Error
  | 0, _, _ => ([], [])
  | _ + 1, _, [] => ([], [])
  | fuel + 1, acc, c :: cs =>
    let s := c :: cs
    match firstMatch ps s with
    | some (tt, content, wlen) =>
      let rest := s.drop wlen
      let wsn := (rest.takeWhile isWsChar).length
      let pr := scanLine ps i fuel (acc + wlen + wsn) (rest.drop wsn)
      (⟨tt, ⟨content⟩, ⟨i, acc, acc + wlen⟩⟩ :: pr.1, pr.2)
    | none =>
      let tokc := s.takeWhile (· != ' ')
      let rest :=
        if tokc.length = s.length then [] else s.drop (tokc.length + 1)
      let pr := scanLine ps i fuel (acc + tokc.length + 1) rest
      (pr.1, ⟨ErrKind.UnknownToken, ⟨i, acc, acc + tokc.length⟩⟩ :: pr.2)

/-- Per-line preparation of `tokenize`: `trim_start` (recording the
offset of the first retained character), `trim_end`, then the scanner
loop. -/
def tokenizeLine (ps : List (TokenType × Matcher)) (i : Nat)
    (line : List Char) : List Token × List Error :=
  let l1 := line.dropWhile isWsChar
  let acc := line.length - l1.length
  let l2 := (l1.reverse.dropWhile isWsChar).reverse
  scanLine ps i (l2.length + 1) acc l2

/-- Split the input at newline characters (Rust `str::lines`; a trailing
newline yields a final empty line here, which produces no tokens and no
errors and is therefore indistinguishable downstream). -/
def splitLinesAux : List Char → List Char → List (List Char)
  | [], cur => [cur.reverse]
  | '\n' :: rest, cur => cur.reverse :: splitLinesAux rest []
  | c :: rest, cur => splitLinesAux rest (c :: cur)

def splitLines (s : List Char) : List (List Char) :=
  splitLinesAux s []

/-- The per-line fold of `tokenize`: comments are filtered out of each
line's tokens, empty token lines are dropped, and errors from all lines
are collected in order. -/
def tokenizeAux (ps : List (TokenType × Matcher)) :
    Nat → List (List Char) → List (List Token) × List Error
  | _, [] => ([], [])
  | i, l :: rest =>
    let pr := tokenizeLine ps i l
    let ts := pr.1.filter (fun t => t.token_type != TokenType.Comment)
    let pr2 := tokenizeAux ps (i + 1) rest
    ((if ts.isEmpty then pr2.1 else ts :: pr2.1), pr.2 ++ pr2.2)

/-- The function `tokenize` (src/lexer.rs, lines 88-153): token groups on
success, the full aggregated error list otherwise. -/
def tokenize (ps : List (TokenType × Matcher)) (input : List Char) :
    Except (List Error) (List (List Token)) :=
  let pr := tokenizeAux ps 0 (splitLines input)
  if pr.2.isEmpty then .ok pr.1 else .error pr.2

/-- Errors contributed by a single line of the input. -/
def lineErrors (ps : List (TokenType × Matcher)) (i : Nat)
    (line : List Char) : List Error :=
  (tokenizeLine ps i line).2

/-- All unknown-token errors of the whole input, line by line. -/
def lexErrors (ps : List (TokenType × Matcher)) (input : List Char) :
    List Error :=
  ((splitLines input).enum).flatMap (fun p => lineErrors ps p.1 p.2)

end Lex

/-! ## Parser (src/parser.rs) with its configuration (src/config.rs)

The list-of-descriptions configuration, argument matching, the i8 number
literal parser, per-line parsing with label binding at the running output
offset, and the whole-input driver with error aggregation. -/

namespace Par

inductive ArgDef where
  | Mem
  | Const
  | A
  | B
  | F
  deriving DecidableEq, Repr

structure InstructionDef where
  mnem : String
  args_def : List ArgDef
  mnem_full : String
  binary : String
  deriving DecidableEq, Repr

/-- Rust `pub struct Config(pub Vec<InstructionDef>)`. -/
abbrev Config := List InstructionDef

inductive Register where
  | A
  | B
  | F
  deriving DecidableEq, Repr

/-- Payload of a numeric argument; the `Num` payload is an `i8` in the
source and always lies in `[-128, 127]` when produced by `parse_number`. -/
inductive Value where
  | Num (n : Int)
  | LabelRef (name : String)
  deriving DecidableEq, Repr

inductive ArgKind where
  | Register (r : Register)
  | ImmediateValue (v : Value)
  | MemAddress (v : Value)
  deriving DecidableEq, Repr

structure Arg where
  kind : ArgKind
  span : Span
  deriving DecidableEq, Repr

/-- Rust `Arg::matches_def` (src/parser.rs, lines 67-77). -/
def Arg.matchesDef (a : Arg) (d : ArgDef) : Bool :=
  match a.kind with
  | .Register .A => d == ArgDef.A
  | .Register .B => d == ArgDef.B
  | .Register .F => d == ArgDef.F
  | .ImmediateValue _ => d == ArgDef.Const
  | .MemAddress _ => d == ArgDef.Mem

structure Instruction where
  mnem : String
  span : Span
  args : List Arg
  deriving DecidableEq, Repr

/-- Rust `Instruction::matches_def` (src/parser.rs, lines 80-88). -/
def Instruction.matchesDef (ins : Instruction) (d : InstructionDef) : Bool :=
  ins.mnem == d.mnem && ins.args.length == d.args_def.length &&
    ((ins.args.zip d.args_def).foldl (fun acc p => acc && p.1.matchesDef p.2) true)

/-- Rust `Instruction::find_match`: first matching description wins. -/
def Instruction.findMatch (ins : Instruction) (cfg : Config) :
    Option InstructionDef :=
  cfg.find? (fun d => ins.matchesDef d)

/-- Value of a digit character in the given radix (0-9, a-z, A-Z as in
Rust `from_str_radix`). -/
def digitValue (radix : Nat) (c : Char) : Option Nat :=
  let v : Option Nat :=
    if c.isDigit then some (c.toNat - 48)
    else if ('a' ≤ c) && (c ≤ 'z') then some (c.toNat - 97 + 10)
    else if ('A' ≤ c) && (c ≤ 'Z') then some (c.toNat - 65 + 10)
    else none
  match v with
  | some v => if v < radix then some v else none
  | none => none

def parseNatDigitsAux (radix : Nat) : List Char → Nat → Option Nat
  | [], acc => some acc
  | c :: rest, acc =>
    match digitValue radix c with
    | some v => parseNatDigitsAux radix rest (radix * acc + v)
    | none => none

/-- Magnitude of a nonempty digit string in the given radix; `none` on an
empty string or an invalid digit. -/
def parseNatDigits (radix : Nat) (s : List Char) : Option Nat :=
  if s.isEmpty then none else parseNatDigitsAux radix s 0

/-- Rust `i8::from_str_radix` (also `str::parse::<i8>` at radix 10):
optional sign, nonempty digit run, result must fit in `[-128, 127]`;
every failure collapses to the `NotANumber` parse error that
src/parser.rs wraps `ParseIntError` into. -/
def fromStrRadixI8 (radix : Nat) (s : List Char) : Except Lex.ErrKind Int :=
  let (neg, digits) :=
    match s with
    | '+' :: rest => (false, rest)
    | '-' :: rest => (true, rest)
    | _ => (false, s)
  match parseNatDigits radix digits with
  | none => .error .NotANumber
  | some n =>
    if neg then
      if n ≤ 128 then .ok (-(n : Int)) else .error .NotANumber
    else
      if n ≤ 127 then .ok (n : Int) else .error .NotANumber

/-- Rust `parse_number` (src/parser.rs, lines 95-114): strip a leading
minus, detect a radix prefix, parse the remaining text as an `i8`, and
re-apply the sign afterwards. -/
def parse_number (s : List Char) : Except Lex.ErrKind Int :=
  let isNeg : Bool := match s with | '-' :: _ => true | _ => false
  let s1 := if isNeg then s.tail else s
  let result :=
    if ("0x".data).isPrefixOf s1 then fromStrRadixI8 16 (s1.drop 2)
    else if ("0b".data).isPrefixOf s1 then fromStrRadixI8 2 (s1.drop 2)
    else if ("0o".data).isPrefixOf s1 then fromStrRadixI8 8 (s1.drop 2)
    else fromStrRadixI8 10 s1
  match result with
  | .ok num => if isNeg then .ok (-num) else .ok num
  | .error e => .error e

inductive Unresolved where
  | LabelRef (name : String) (span : Span)
  | Value (bin : String)
  deriving DecidableEq, Repr

/-- Rust `Arg::to_unresolved_binary` (src/parser.rs, lines 151-167). -/
def to_unresolved_binary (a : Arg) : Option Unresolved :=
  match a.kind with
  | .Register _ => none
  | .ImmediateValue (.Num num) => some (.Value (fmt08bI8 num))
  | .MemAddress (.Num num) => some (.Value (fmt08bI8 num))
  | .ImmediateValue (.LabelRef label) => some (.LabelRef label a.span)
  | .MemAddress (.LabelRef label) => some (.LabelRef label a.span)

/-- Rust `impl TryFrom<Token> for Arg` (src/parser.rs, lines 116-143);
the outer `Option` models the `unreachable!()` on a `Register` token
whose content is none of `A`, `B`, `F`. -/
def tokenToArg (t : Lex.Token) : Option (Except Lex.Error Arg) :=
  match t.token_type with
  | .Register =>
    match t.content with
    | "A" => some (.ok ⟨.Register .A, t.span⟩)
    | "B" => some (.ok ⟨.Register .B, t.span⟩)
    | "F" => some (.ok ⟨.Register .F, t.span⟩)
    | _ => none
  | .Number =>
    some (match parse_number t.content.data with
      | .ok n => .ok ⟨.ImmediateValue (.Num n), t.span⟩
      | .error e => .error ⟨e, t.span⟩)
  | .LabelRef => some (.ok ⟨.ImmediateValue (.LabelRef t.content), t.span⟩)
  | .MemAddress =>
    some (match parse_number t.content.data with
      | .ok n => .ok ⟨.MemAddress (.Num n), t.span⟩
      | .error e => .error ⟨e, t.span⟩)
  | .LabelAddressRef => some (.ok ⟨.MemAddress (.LabelRef t.content), t.span⟩)
  | _ => some (.error ⟨.NotAnArg, t.span⟩)

/-- Rust `ResultSplit::result_split`: all the oks when there is no error,
otherwise all the errors, each in input order. -/
def resultSplit (l : List (Except ε α)) : Except (List ε) (List α) :=
  let errs := l.filterMap (fun r => match r with | .error e => some e | .ok _ => none)
  if errs.isEmpty then
    .ok (l.filterMap (fun r => match r with | .ok a => some a | .error _ => none))
  else .error errs

/-- Rust `Labels(HashMap<String, usize>)`, as an association list whose
insert prepends (so lookup finds the most recent binding, realising the
overwrite semantics of `HashMap::insert`). -/
abbrev Labels := List (String × Nat)

def insertLabel (m : Labels) (k : String) (v : Nat) : Labels :=
  (k, v) :: m

def lookupLabel (m : Labels) (k : String) : Option Nat :=
  (m.find? (fun p => p.1 == k)).map (·.2)

/-- Sequencing of the panics hidden inside an argument list (the map is
consumed in order, so the first `unreachable!()` aborts the run). -/
def sequenceOpt : List (Option α) → Option (List α)
  | [] => some []
  | none :: _ => none
  | some a :: rest => (sequenceOpt rest).map (a :: ·)

/-- The byte-declaration loop of `parse_line` (src/parser.rs, lines
218-226): numbers are parsed and rendered one by one, failing fast on the
first bad literal (wrapped as a singleton error vector by the `?`). -/
def byteValues : List Lex.Token → Except (List Lex.Error) (List Unresolved)
  | [] => .ok []
  | t :: rest =>
    match parse_number t.content.data with
    | .error e => .error [⟨e, t.span⟩]
    | .ok n =>
      match byteValues rest with
      | .error es => .error es
      | .ok vs => .ok (Unresolved.Value (fmt08bI8 n) :: vs)

/-- Rust `parse_line` (src/parser.rs, lines 169-234). Returns the updated
label table, the updated running output offset (`curr_line`), and the
line's unresolved units or its errors; `none` models a panic. Leading
`Label` tokens are bound to the offset as it stands at the start of the
line (the skip_while closure runs before any unit of this line is
emitted), and the offset grows by the number of emitted units only on
success. -/
def parse_line (labels : Labels) (curr_line : Nat)
    (tokens : List Lex.Token) (config : Config) :
    Option (Labels × Nat × Except (List Lex.Error) (List Unresolved)) :=
  let line_span := tokens.foldl (fun a t => spanAdd a t.span) ⟨0, 0, 0⟩
  let lead := tokens.takeWhile (fun t => t.token_type == Lex.TokenType.Label)
  let labels := lead.foldl (fun m t => insertLabel m t.content curr_line) labels
  match tokens.dropWhile (fun t => t.token_type == Lex.TokenType.Label) with
  | [] => some (labels, curr_line, .error [⟨.EmptyLine, line_span⟩])
  | first :: iter =>
    match first.token_type with
    | .Mnemonic =>
      match sequenceOpt (iter.map tokenToArg) with
      | none => none
      | some argResults =>
        match resultSplit argResults with
        | .error errs => some (labels, curr_line, .error errs)
        | .ok args =>
          let instr : Instruction := ⟨first.content, line_span, args⟩
          match instr.findMatch config with
          | none => some (labels, curr_line, .error [⟨.NoMapping, line_span⟩])
          | some d =>
            let ret := Unresolved.Value d.binary :: args.filterMap to_unresolved_binary
            some (labels, curr_line + ret.length, .ok ret)
    | .Byte =>
      match byteValues iter with
      | .error errs => some (labels, curr_line, .error errs)
      | .ok ret => some (labels, curr_line + ret.length, .ok ret)
    | _ => some (labels, curr_line, .error [⟨.WrongFirst, first.span⟩])

/-- The fold of `parse_all` over the token lines, threading the label
table and offset and collecting units and errors in order. -/
def parseAllAux (config : Config) :
    Labels → Nat → List Unresolved → List Lex.Error → List (List Lex.Token) →
    Option (List Unresolved × Labels × List Lex.Error)
  | labels, _, unres, errs, [] => some (unres, labels, errs)
  | labels, curr, unres, errs, l :: rest =>
    match parse_line labels curr l config with
    | none => none
    | some (labels2, curr2, .ok us) =>
      parseAllAux config labels2 curr2 (unres ++ us) errs rest
    | some (labels2, curr2, .error es) =>
      parseAllAux config labels2 curr2 unres (errs ++ es) rest

/-- Rust `parse_all` (src/parser.rs, lines 236-259): every line is
parsed (error aggregation), and the unresolved stream plus label table is
returned only when no line failed. -/
def parse_all (lines : List (List Lex.Token)) (config : Config) :
    Option (Except (List Lex.Error) (List Unresolved × Labels)) :=
  match parseAllAux config [] 0 [] [] lines with
  | none => none
  | some (unres, labels, errs) =>
    some (if errs.isEmpty then .ok (unres, labels) else .error errs)

end Par

/-! ## Resolver (src/resolver.rs) -/

namespace Res

/-- Rust `resolve_label` (src/resolver.rs, lines 14-24): a `Value` passes
through unchanged; a `LabelRef` is looked up and replaced by the
`{:08b}` rendering of the bound offset, or fails with `UnknownLabel`
carrying the reference's span. -/
def resolve_label (labels : Par.Labels) (u : Par.Unresolved) :
    Except Lex.Error String :=
  match u with
  | .LabelRef label span =>
    match Par.lookupLabel labels label with
    | some v => .ok (fmt08b v)
    | none => .error ⟨.UnknownLabel, span⟩
  | .Value bin => .ok bin

/-- Rust `resolve_all_labels` (src/resolver.rs, lines 26-36). -/
def resolve_all_labels (labels : Par.Labels)
    (unresolved : List Par.Unresolved) :
    Except (List Lex.Error) (List String) :=
  Par.resultSplit (unresolved.map (resolve_label labels))

end Res

/-! ## Checker / encoder (src/checker.rs, with src/specs.rs and src/token.rs)

This part of the repository is a later generation of the pipeline: tokens
carry typed payloads (src/token.rs) and the instruction set is a trie
automaton consulted by `check_instruction`. -/

namespace Chk

/-- Mnemonic vocabulary (src/specs.rs, lines 22-49). -/
inductive Mnemonic where
  | Mov | Halt | Movat | And | Or | Skip1 | Inv | Xor | Cmp | Shl | Nop
  | Add | Skip | Jmpimm | Jmprel | Pop | Push | Neg | Sub | Shr | Inc
  | Skip2 | Clr | Dec | Div2
  deriving DecidableEq, Repr

/-- Register vocabulary (src/specs.rs, lines 12-20). -/
inductive Register where
  | A | B | F | T | TL | TH
  deriving DecidableEq, Repr

/-- Operand kinds (src/specs.rs, lines 3-10). -/
inductive Operand where
  | Register (r : Register)
  | Mem8
  | Mem16
  | Const
  | Stc
  deriving DecidableEq, Repr

/-- Token kinds with payloads (src/token.rs, lines 30-40); the `Number`
payload is an `i64`. -/
inductive TokenType where
  | Mnemonic (m : Mnemonic)
  | Register (r : Register)
  | Number (n : Int)
  | Label (name : String)
  | LabelRef (name : String)
  | Byte
  | LeftSquareBracket
  | RightSquareBracket
  deriving DecidableEq, Repr

structure Token where
  token_type : TokenType
  content : String
  span : Span
  deriving DecidableEq, Repr

/-- Modelled from the spec: the automaton module `crate::config` imported
by src/checker.rs (`Config`, `ConfigNode`, `NodeType`) is not among the
source files (src/config.rs holds an older list-based configuration).
Spec section 3 describes the node type: a tagged variant over the
mnemonic root key, an operand-kind key, and the reserved terminal marker,
which the checker calls `MachineCode`. -/
inductive NodeType where
  | Mnemonic (m : Mnemonic)
  | Operand (op : Operand)
  | MachineCode
  deriving DecidableEq, Repr

/-- Modelled from the spec: an automaton node is `Leaf(opcode bit-string)`
or `Branch(mapping from NodeType to node)` (spec section 3); the mapping
is an association list with `get` as first-match lookup. -/
inductive ConfigNode where
  | Leaf (code : String)
  | Branch (children : List (NodeType × ConfigNode))

/-- Modelled from the spec: the configuration owns the automaton's root
mapping, consulted by `config.automaton.get(&NodeType::Mnemonic(..))`. -/
structure Config where
  automaton : List (NodeType × ConfigNode)

/-- Lookup in a `Branch` mapping (`HashMap::get`). -/
def getChild : List (NodeType × ConfigNode) → NodeType → Option ConfigNode
  | [], _ => none
  | (k, v) :: rest, key => if k = key then some v else getChild rest key

/-- Error type `WriterErr` (src/checker.rs, lines 12-22). -/
inductive WriterErr where
  | UnknownMnemonic (s : String)
  | InvalidOperand (s : String)
  | NumberOutOfRange (n : Int)
  | UnknownLabel (s : String)
  deriving DecidableEq, Repr

/-- Encoded output of one checked line (src/checker.rs, lines 24-31);
bytes are `u8`, modelled as naturals below 256. -/
inductive CheckedLineCode where
  | Byte (bytes : List Nat)
  | Instruction (mnemonic_code : Nat) (operand_codes : List Nat)
  deriving DecidableEq, Repr

/-- The label table `HashMap<&str, usize>`. -/
abbrev Labels := List (String × Nat)

def lookupChk (m : Labels) (k : String) : Option Nat :=
  (m.find? (fun p => p.1 == k)).map (·.2)

def bstbAux : List Char → Nat → Nat → Nat
  | [], _, byte => byte
  | c :: rest, i, byte =>
    bstbAux rest (i + 1) (if c = '1' then byte ||| (1 <<< i) else byte)

/-- Rust `binary_str_to_byte` (src/checker.rs, lines 103-111): walk the
characters in reverse order, setting bit `i` for each `'1'`. The `u8`
arithmetic never overflows on the 8-character opcode strings this is
applied to (bit index at most 7), so plain naturals model it exactly. -/
def binary_str_to_byte (binary_str : String) : Nat :=
  bstbAux binary_str.data.reverse 0 0

/-- Rust `parse_num` (src/checker.rs, lines 113-119): range check
`[-128, 255]`, then truncating cast `as u8`. -/
def parse_num (number : Int) : Except WriterErr Nat :=
  if ¬(-128 ≤ number ∧ number ≤ 255) then .error (.NumberOutOfRange number)
  else .ok ((number % 256).toNat)

/-- Rust `parse_labelref` (src/checker.rs, lines 121-129): `usize as u8`. -/
def parse_labelref (labels : Labels) (label : String) : Except WriterErr Nat :=
  match lookupChk labels label with
  | none => .error (.UnknownLabel label)
  | some v => .ok (v % 256)

/-- Rust `parse_value` (src/checker.rs, lines 131-140); the outer
`Option` models the `unreachable!()` on any token that is neither a
number nor a label reference. -/
def parse_value (labels : Labels) (value : Token) :
    Option (Except WriterErr Nat) :=
  match value.token_type with
  | .Number n => some (parse_num n)
  | .LabelRef l => some (parse_labelref labels l)
  | _ => none

/-- Rust `parse_wide_num` (src/checker.rs, lines 142-148): range check
`[-32768, 65535]`, then truncating cast `as u16`. -/
def parse_wide_num (number : Int) : Except WriterErr Nat :=
  if ¬(-32768 ≤ number ∧ number ≤ 65535) then .error (.NumberOutOfRange number)
  else .ok ((number % 65536).toNat)

/-- Rust `parse_wide_labelref` (src/checker.rs, lines 150-158). -/
def parse_wide_labelref (labels : Labels) (label : String) :
    Except WriterErr Nat :=
  match lookupChk labels label with
  | none => .error (.UnknownLabel label)
  | some v => .ok (v % 65536)

/-- Rust `parse_wide_value` (src/checker.rs, lines 160-169). -/
def parse_wide_value (labels : Labels) (value : Token) :
    Option (Except WriterErr Nat) :=
  match value.token_type with
  | .Number n => some (parse_wide_num n)
  | .LabelRef l => some (parse_wide_labelref labels l)
  | _ => none

/-- The `for operand in operands` loop of `check_instruction`
(src/checker.rs, lines 57-82): each operand is first encoded (one byte
for `Mem8`/`Const`, two big-endian bytes for `Mem16`, nothing otherwise),
then the automaton transition keyed by the operand kind is taken;
a missing edge is `InvalidOperand` with the operand token's content, and
a `Leaf` in transition position is the loop's `unreachable!()`. -/
def checkOperands (labels : Labels) :
    ConfigNode → List (Operand × Token) → List Nat →
    Option (Except WriterErr (ConfigNode × List Nat))
  | node, [], codes => some (.ok (node, codes))
  | node, (op, tok) :: rest, codes =>
    let enc : Option (Except WriterErr (List Nat)) :=
      match op with
      | .Mem8 => (parse_value labels tok).map (fun r => r.map (fun b => codes ++ [b]))
      | .Const => (parse_value labels tok).map (fun r => r.map (fun b => codes ++ [b]))
      | .Mem16 =>
        (parse_wide_value labels tok).map
          (fun r => r.map (fun v => codes ++ [v / 256, v % 256]))
      | _ => some (.ok codes)
    match enc with
    | none => none
    | some (.error e) => some (.error e)
    | some (.ok codes2) =>
      match node with
      | .Branch children =>
        match getChild children (NodeType.Operand op) with
        | some next => checkOperands labels next rest codes2
        | none => some (.error (.InvalidOperand tok.content))
      | .Leaf _ => none

/-- Rust `check_instruction` (src/checker.rs, lines 39-99). `none` models
a panic: the `.unwrap()` on the automaton root lookup, and the
`unreachable!()` arms around the terminal `MachineCode` edge. Note that
the `UnknownMnemonic` error is returned only when the mnemonic token's
type is not `TokenType::Mnemonic` at all; a well-typed mnemonic that is
absent from the automaton root hits the `.unwrap()`. -/
def check_instruction (config : Config) (labels : Labels) (mnemonic : Token)
    (operands : List (Operand × Token)) :
    Option (Except WriterErr CheckedLineCode) :=
  match mnemonic.token_type with
  | .Mnemonic m =>
    match getChild config.automaton (NodeType.Mnemonic m) with
    | none => none
    | some root =>
      match checkOperands labels root operands [] with
      | none => none
      | some (.error e) => some (.error e)
      | some (.ok (node, codes)) =>
        match node with
        | .Branch leafmap =>
          match getChild leafmap NodeType.MachineCode with
          | some (ConfigNode.Leaf code) =>
            some (.ok (.Instruction (binary_str_to_byte code) codes))
          | some (ConfigNode.Branch _) => none
          | none => none
        | .Leaf _ => none
  | _ => some (.error (.UnknownMnemonic mnemonic.content))

end Chk

/-! ## Claim theorems -/

/-- CLAIM C8 counterexample: merging the span of line 5 with a span of
line 3 yields line 3 (the right-hand operand's line), not the maximum of
the two lines, so span addition does not take the later (maximum) line. -/
theorem c8_span_merge_counterexample :
    spanAdd ⟨5, 0, 1⟩ ⟨3, 2, 4⟩ = ⟨3, 0, 4⟩ ∧
    (spanAdd ⟨5, 0, 1⟩ ⟨3, 2, 4⟩).line ≠ max 5 3 := by
  decide

/-- CLAIM C8 (amended): merging two spans yields the enclosing character
range (minimum of the starts to maximum of the ends) on the line of the
right-hand operand — which is the later line only when the operands are
given in line order. -/
theorem c8_span_merge_amended (a b : Span) :
    spanAdd a b = ⟨b.line, min a.first b.first, max a.stop b.stop⟩ :=
  rfl

/-- An empty automaton: no mnemonic has a root entry. -/
def cfgEmpty : Chk.Config := ⟨[]⟩

/-- A well-typed `NOP` mnemonic token. -/
def tokNop : Chk.Token := ⟨.Mnemonic .Nop, "NOP", ⟨0, 0, 3⟩⟩

/-- CLAIM C4 counterexample: for an instruction line whose mnemonic token
is a well-typed `Mnemonic` (here `NOP`) that has no root entry in the
automaton, `check_instruction` hits the `.unwrap()` on the failed root
lookup — modelled as `none`, the panic — instead of returning an
`UnknownMnemonic` error as the claim states. -/
theorem c4_unknown_mnemonic_counterexample :
    Chk.check_instruction cfgEmpty [] tokNop [] = none :=
  rfl

/-- CLAIM C4 (amended): `check_instruction` returns `UnknownMnemonic`
(carrying the token's content) exactly when the mnemonic token's type is
not `TokenType::Mnemonic` at all, for every config, label table and
operand list; when the token is a well-typed mnemonic absent from the
automaton's root map, the checker panics on `.unwrap()` instead of
returning an error. -/
theorem c4_unknown_mnemonic_amended (config : Chk.Config)
    (labels : Chk.Labels) (mnemonic : Chk.Token)
    (operands : List (Chk.Operand × Chk.Token))
    (h : ∀ m : Chk.Mnemonic, mnemonic.token_type ≠ Chk.TokenType.Mnemonic m) :
    Chk.check_instruction config labels mnemonic operands =
      some (.error (.UnknownMnemonic mnemonic.content)) := by
  unfold Chk.check_instruction
  cases htt : mnemonic.token_type with
  | Mnemonic m => exact absurd htt (h m)
  | _ => rfl

/-- Witness for C4 (amended): a number-typed token in mnemonic position
is rejected with `UnknownMnemonic` carrying its content. -/
theorem c4_unknown_mnemonic_amended_witness :
    Chk.check_instruction cfgEmpty [] ⟨.Number 5, "5", ⟨0, 0, 1⟩⟩ [] =
      some (.error (.UnknownMnemonic "5")) :=
  c4_unknown_mnemonic_amended cfgEmpty [] ⟨.Number 5, "5", ⟨0, 0, 1⟩⟩ []
    (fun _ h => nomatch h)

/-- CLAIM C3: the resolver's substitution pass leaves `Value` units
unchanged; a `LabelRef` whose name is unbound fails with `UnknownLabel`
carrying exactly the reference's span; a bound `LabelRef` is replaced by
the binary (`{:08b}`) rendering of the bound offset. -/
theorem c3_resolver_substitution :
    (∀ (labels : Par.Labels) (s : String),
       Res.resolve_label labels (.Value s) = .ok s)
  ∧ (∀ (labels : Par.Labels) (name : String) (sp : Span),
       Par.lookupLabel labels name = none →
       Res.resolve_label labels (.LabelRef name sp) =
         .error ⟨.UnknownLabel, sp⟩)
  ∧ (∀ (labels : Par.Labels) (name : String) (sp : Span) (v : Nat),
       Par.lookupLabel labels name = some v →
       Res.resolve_label labels (.LabelRef name sp) = .ok (fmt08b v)) := by
  refine ⟨fun labels s => rfl, ?_, ?_⟩
  · intro labels name sp hnone
    simp [Res.resolve_label, hnone]
  · intro labels name sp v hsome
    simp [Res.resolve_label, hsome]

/-- Witness for C3 at a concrete table: `label1` is bound to 5 and
resolves to its 8-bit rendering, `nowhere` is unbound and fails with
`UnknownLabel` at the reference's span. -/
theorem c3_resolver_substitution_witness :
    Res.resolve_label [("label1", 5)] (.LabelRef "label1" ⟨0, 0, 6⟩) =
      .ok "00000101" ∧
    Res.resolve_label [("label1", 5)] (.LabelRef "nowhere" ⟨0, 7, 13⟩) =
      .error ⟨.UnknownLabel, ⟨0, 7, 13⟩⟩ ∧
    Res.resolve_label [("label1", 5)] (.Value "01010101") = .ok "01010101" := by
  refine ⟨?_, ?_, ?_⟩
  · have h := c3_resolver_substitution.2.2 [("label1", 5)] "label1" ⟨0, 0, 6⟩ 5
      (by decide)
    rw [h]; decide
  · exact c3_resolver_substitution.2.1 [("label1", 5)] "nowhere" ⟨0, 7, 13⟩
      (by decide)
  · exact c3_resolver_substitution.1 [("label1", 5)] "01010101"

/-- An automaton with the two 8-bit-operand paths
`MOV Const → "00000010"` and `MOV Mem8 → "00000010"`. -/
def cfg8 : Chk.Config :=
  ⟨[(Chk.NodeType.Mnemonic .Mov, Chk.ConfigNode.Branch
      [(Chk.NodeType.Operand .Const, Chk.ConfigNode.Branch
          [(Chk.NodeType.MachineCode, Chk.ConfigNode.Leaf "00000010")]),
       (Chk.NodeType.Operand .Mem8, Chk.ConfigNode.Branch
          [(Chk.NodeType.MachineCode, Chk.ConfigNode.Leaf "00000010")])])]⟩

/-- An automaton with the single 16-bit path `MOV Mem16 → "00000001"`. -/
def cfg16 : Chk.Config :=
  ⟨[(Chk.NodeType.Mnemonic .Mov, Chk.ConfigNode.Branch
      [(Chk.NodeType.Operand .Mem16, Chk.ConfigNode.Branch
          [(Chk.NodeType.MachineCode, Chk.ConfigNode.Leaf "00000001")])])]⟩

/-- A well-typed `MOV` mnemonic token. -/
def tokMov : Chk.Token := ⟨.Mnemonic .Mov, "MOV", ⟨0, 0, 3⟩⟩

/-- A number token with the given `i64` payload. -/
def tokNum (n : Int) : Chk.Token := ⟨.Number n, "num", ⟨0, 4, 7⟩⟩

/-- CLAIM C2: encoding an 8-bit immediate (`Const`) or memory (`Mem8`)
operand succeeds — with exactly one operand byte, the truncating `as u8`
cast of the value — if and only if `-128 ≤ n ≤ 255`, and fails with
`NumberOutOfRange n` otherwise; every successfully parsed value fits in
one byte. -/
theorem c2_eight_bit_operand_range (number : Int) (op : Chk.Operand)
    (hop : op = Chk.Operand.Const ∨ op = Chk.Operand.Mem8) :
    (Chk.parse_num number =
       if -128 ≤ number ∧ number ≤ 255 then .ok ((number % 256).toNat)
       else .error (.NumberOutOfRange number))
  ∧ (∀ b, Chk.parse_num number = .ok b → b < 256)
  ∧ ((-128 ≤ number ∧ number ≤ 255) →
       Chk.check_instruction cfg8 [] tokMov [(op, tokNum number)] =
         some (.ok (.Instruction 2 [(number % 256).toNat])))
  ∧ (¬(-128 ≤ number ∧ number ≤ 255) →
       Chk.check_instruction cfg8 [] tokMov [(op, tokNum number)] =
         some (.error (.NumberOutOfRange number))) := by
  have hmod : (number % 256).toNat < 256 := by
    have h0 : 0 ≤ number % 256 := Int.emod_nonneg _ (by norm_num)
    have h1 : number % 256 < 256 := Int.emod_lt_of_pos _ (by norm_num)
    omega
  refine ⟨?_, ?_, ?_, ?_⟩
  · by_cases hr : -128 ≤ number ∧ number ≤ 255 <;>
      simp [Chk.parse_num, hr]
  · intro b hb
    simp only [Chk.parse_num] at hb
    split at hb
    · exact absurd hb (by simp)
    · cases hb
      exact hmod
  · intro hr
    have h1 : Chk.parse_num number = .ok ((number % 256).toNat) := by
      simp [Chk.parse_num, hr.1, hr.2]
    rcases hop with rfl | rfl <;>
      simp [Chk.check_instruction, tokMov, cfg8, Chk.getChild, Chk.checkOperands,
        Chk.parse_value, tokNum, h1, Except.map] <;> decide
  · intro hr
    have h1 : Chk.parse_num number = .error (.NumberOutOfRange number) := by
      simp [Chk.parse_num, hr]
    rcases hop with rfl | rfl <;>
      simp [Chk.check_instruction, tokMov, cfg8, Chk.getChild, Chk.checkOperands,
        Chk.parse_value, tokNum, h1, Except.map]

/-- Witness for C2 at the boundary values 255 (succeeds, one byte),
256 and -129 (each `NumberOutOfRange`). -/
theorem c2_eight_bit_operand_range_witness :
    Chk.parse_num 255 = .ok 255 ∧
    Chk.parse_num 256 = .error (.NumberOutOfRange 256) ∧
    Chk.parse_num (-129) = .error (.NumberOutOfRange (-129)) ∧
    Chk.check_instruction cfg8 [] tokMov [(.Const, tokNum 255)] =
      some (.ok (.Instruction 2 [255])) := by
  have h255 := c2_eight_bit_operand_range 255 .Const (Or.inl rfl)
  have h256 := c2_eight_bit_operand_range 256 .Const (Or.inl rfl)
  have hneg := c2_eight_bit_operand_range (-129) .Const (Or.inl rfl)
  refine ⟨?_, ?_, ?_, ?_⟩
  · rw [h255.1]; decide
  · rw [h256.1]; decide
  · rw [hneg.1]; decide
  · rw [h255.2.2.1 ⟨by decide, by decide⟩]; decide

/-- CLAIM C5: encoding a 16-bit memory (`Mem16`) operand succeeds if and
only if `-32768 ≤ n ≤ 65535`, emitting exactly two bytes with the most
significant byte first (the value decomposes as 256 * first + second),
and fails with `NumberOutOfRange` otherwise. -/
theorem c5_wide_operand_range (number : Int) :
    (Chk.parse_wide_num number =
       if -32768 ≤ number ∧ number ≤ 65535 then .ok ((number % 65536).toNat)
       else .error (.NumberOutOfRange number))
  ∧ ((-32768 ≤ number ∧ number ≤ 65535) →
       Chk.check_instruction cfg16 [] tokMov [(.Mem16, tokNum number)] =
         some (.ok (.Instruction 1
           [(number % 65536).toNat / 256, (number % 65536).toNat % 256])))
  ∧ (¬(-32768 ≤ number ∧ number ≤ 65535) →
       Chk.check_instruction cfg16 [] tokMov [(.Mem16, tokNum number)] =
         some (.error (.NumberOutOfRange number)))
  ∧ ((number % 65536).toNat =
       256 * ((number % 65536).toNat / 256) + (number % 65536).toNat % 256 ∧
     (number % 65536).toNat / 256 < 256 ∧ (number % 65536).toNat % 256 < 256) := by
  have h0 : 0 ≤ number % 65536 := Int.emod_nonneg _ (by norm_num)
  have h1 : number % 65536 < 65536 := Int.emod_lt_of_pos _ (by norm_num)
  refine ⟨?_, ?_, ?_, ?_⟩
  · by_cases hr : -32768 ≤ number ∧ number ≤ 65535 <;>
      simp [Chk.parse_wide_num, hr]
  · intro hr
    have hw : Chk.parse_wide_num number = .ok ((number % 65536).toNat) := by
      simp [Chk.parse_wide_num, hr.1, hr.2]
    simp [Chk.check_instruction, tokMov, cfg16, Chk.getChild, Chk.checkOperands,
      Chk.parse_wide_value, tokNum, hw, Except.map]
    decide
  · intro hr
    have hw : Chk.parse_wide_num number = .error (.NumberOutOfRange number) := by
      simp [Chk.parse_wide_num, hr]
    simp [Chk.check_instruction, tokMov, cfg16, Chk.getChild, Chk.checkOperands,
      Chk.parse_wide_value, tokNum, hw, Except.map]
  · omega

/-- Witness for C5 at the boundary values 65535 (succeeds: two bytes,
most significant first) and 65536 (`NumberOutOfRange`). -/
theorem c5_wide_operand_range_witness :
    Chk.check_instruction cfg16 [] tokMov [(.Mem16, tokNum 65535)] =
      some (.ok (.Instruction 1 [255, 255])) ∧
    Chk.parse_wide_num 65536 = .error (.NumberOutOfRange 65536) := by
  have hok := c5_wide_operand_range 65535
  have hbad := c5_wide_operand_range 65536
  refine ⟨?_, ?_⟩
  · rw [hok.2.1 ⟨by decide, by decide⟩]; decide
  · rw [hbad.1]; decide

/-- Modelled from the claim's words, for comparison with
`binary_str_to_byte`: the value of a string read as a base-2 numeral with
the first character most significant, a `'1'` contributing 1 and any
other character 0. -/
def msbFirstValue (s : List Char) : Nat :=
  s.foldl (fun acc c => 2 * acc + (if c = '1' then 1 else 0)) 0

set_option maxHeartbeats 1000000 in
/-- CLAIM C9: on every string of exactly 8 characters,
`binary_str_to_byte` returns the byte whose value is the string read as a
base-2 numeral, first character most significant, with any character
other than `'1'` contributing a 0 bit. -/
theorem c9_binary_str_to_byte (s : List Char) (hlen : s.length = 8) :
    Chk.binary_str_to_byte ⟨s⟩ = msbFirstValue s := by
  match s, hlen with
  | [c0, c1, c2, c3, c4, c5, c6, c7], _ =>
    by_cases h0 : c0 = '1' <;> by_cases h1 : c1 = '1' <;> by_cases h2 : c2 = '1' <;>
      by_cases h3 : c3 = '1' <;> by_cases h4 : c4 = '1' <;> by_cases h5 : c5 = '1' <;>
      by_cases h6 : c6 = '1' <;> by_cases h7 : c7 = '1' <;>
      simp [Chk.binary_str_to_byte, Chk.bstbAux, msbFirstValue, h0, h1, h2, h3,
        h4, h5, h6, h7]

/-- Witness for C9: the 8-character string 10110011 decodes to 179,
both by the checker's function and by the MSB-first reading. -/
theorem c9_binary_str_to_byte_witness :
    Chk.binary_str_to_byte "10110011" = 179 ∧
    msbFirstValue ("10110011".data) = 179 := by
  have h := c9_binary_str_to_byte ("10110011".data) (by decide)
  exact ⟨h.trans (by decide), by decide⟩

/-- A configuration with `JMP CONST` (opcode 00000100) and a zero-operand
`NOP` (opcode 00000000). -/
def cfgC1 : Par.Config :=
  [⟨"JMP", [Par.ArgDef.Const], "JMPIMM", "00000100"⟩,
   ⟨"NOP", [], "NOP", "00000000"⟩]

/-- Token line `JMP #start` as the lexer produces it. -/
def c1Line1 : List Lex.Token :=
  [⟨.Mnemonic, "JMP", ⟨0, 0, 4⟩⟩, ⟨.LabelRef, "start", ⟨0, 4, 10⟩⟩]

/-- Token line `start: NOP` as the lexer produces it. -/
def c1Line2 : List Lex.Token :=
  [⟨.Label, "start", ⟨1, 0, 6⟩⟩, ⟨.Mnemonic, "NOP", ⟨1, 7, 10⟩⟩]

/-- Unresolved units of the two-line program: the JMP opcode, the label
placeholder for its operand, then the NOP opcode. -/
def c1Units : List Par.Unresolved :=
  [.Value "00000100", .LabelRef "start" ⟨0, 4, 10⟩, .Value "00000000"]

/-- A second `JMP #start` line (line index 1) for the three-line variant. -/
def c1Line2b : List Lex.Token :=
  [⟨.Mnemonic, "JMP", ⟨1, 0, 4⟩⟩, ⟨.LabelRef, "start", ⟨1, 4, 10⟩⟩]

/-- Token line `start: NOP` on line index 2. -/
def c1Line3b : List Lex.Token :=
  [⟨.Label, "start", ⟨2, 0, 6⟩⟩, ⟨.Mnemonic, "NOP", ⟨2, 7, 10⟩⟩]

/-- Unresolved units of the three-line variant. -/
def c1UnitsB : List Par.Unresolved :=
  [.Value "00000100", .LabelRef "start" ⟨0, 4, 10⟩,
   .Value "00000100", .LabelRef "start" ⟨1, 4, 10⟩,
   .Value "00000000"]

/-- CLAIM C1: for the source `JMP #start\nstart: NOP`, the `JMP` line
emits 2 units (opcode plus operand placeholder), the label `start` is
bound to the running output-byte offset 2 at the start of its line —
exactly the byte count of the JMP encoding, neither 0 nor a source line
index — and the resolved `#start` reference encodes that offset
(00000010). In the variant with two JMP lines before the label, the
binding moves to offset 4, confirming it tracks the running output
offset, not a line number. -/
theorem c1_forward_reference :
    Lex.tokenize Lex.create_patterns ("JMP #start\nstart: NOP".data) =
      .ok [c1Line1, c1Line2] ∧
    Par.parse_line [] 0 c1Line1 cfgC1 =
      some ([], 2, .ok [.Value "00000100", .LabelRef "start" ⟨0, 4, 10⟩]) ∧
    Par.parse_all [c1Line1, c1Line2] cfgC1 =
      some (.ok (c1Units, [("start", 2)])) ∧
    Res.resolve_all_labels [("start", 2)] c1Units =
      .ok ["00000100", "00000010", "00000000"] ∧
    fmt08b 2 = "00000010" ∧
    Par.parse_all [c1Line1, c1Line2b, c1Line3b] cfgC1 =
      some (.ok (c1UnitsB, [("start", 4)])) := by
  refine ⟨by decide, by decide, by decide, by decide, by decide, by decide⟩

/-- A `byte` declaration line with 256 zero literals, putting the next
line at output offset 256. -/
def c7ByteLine : List Lex.Token :=
  ⟨.Byte, "byte", ⟨0, 0, 5⟩⟩ :: List.replicate 256 ⟨.Number, "0", ⟨0, 5, 6⟩⟩

/-- Token line `far: NOP` at output offset 256. -/
def c7LabelLine : List Lex.Token :=
  [⟨.Label, "far", ⟨1, 0, 4⟩⟩, ⟨.Mnemonic, "NOP", ⟨1, 5, 8⟩⟩]

/-- Token line `JMP #far`. -/
def c7JmpLine : List Lex.Token :=
  [⟨.Mnemonic, "JMP", ⟨2, 0, 4⟩⟩, ⟨.LabelRef, "far", ⟨2, 4, 8⟩⟩]

/-- Unresolved units of the 260-byte program: 256 data bytes, the NOP
opcode, the JMP opcode and the label placeholder. -/
def c7Units : List Par.Unresolved :=
  List.replicate 257 (.Value "00000000") ++
    [.Value "00000100", .LabelRef "far" ⟨2, 4, 8⟩]

/-- Resolved output of the 260-byte program; its final unit is the
9-character rendering of offset 256. -/
def c7Out : List String :=
  List.replicate 257 "00000000" ++ ["00000100", "100000000"]

set_option maxRecDepth 40000 in
/-- CLAIM C7 counterexample: a valid program whose label `far` is bound
to offset 256 assembles successfully, but the resolved reference unit is
`{:08b}`-rendered as the 9-character string 100000000 — not an
8-character bit-string — so the claimed every-unit-is-8-characters
guarantee fails for label offsets above 255. -/
theorem c7_bit_string_counterexample :
    Par.parse_all [c7ByteLine, c7LabelLine, c7JmpLine] cfgC1 =
      some (.ok (c7Units, [("far", 256)])) ∧
    Res.resolve_all_labels [("far", 256)] c7Units = .ok c7Out ∧
    c7Out.getLast? = some "100000000" ∧
    ¬ isBits8 ("100000000".data) := by
  refine ⟨by decide, by decide, by decide, by decide⟩

/-- CLAIM C7 (amended): numeric operand units emitted by
`to_unresolved_binary` (i8 two's-complement renderings, as also used for
byte-declaration values) are always exactly 8 characters of 0/1, most
significant bit first; a resolved label unit, rendered with the same
`{:08b}` format, is exactly 8 such characters precisely when the bound
offset is below 256 (it is longer otherwise); and `Value` units — which
include opcode strings copied verbatim from the configuration — pass
through the resolver unchanged, so the 8-character guarantee extends to
opcodes only if the configuration supplies 8-character bit-strings. -/
theorem c7_bit_string_amended :
    (∀ (n : Int) (sp : Span),
        Par.to_unresolved_binary ⟨.ImmediateValue (.Num n), sp⟩ =
          some (.Value (fmt08bI8 n)) ∧
        Par.to_unresolved_binary ⟨.MemAddress (.Num n), sp⟩ =
          some (.Value (fmt08bI8 n)) ∧
        isBits8 (fmt08bI8 n).data)
  ∧ (∀ v : Nat, isBits8 (fmt08b v).data ↔ v < 256)
  ∧ (∀ (labels : Par.Labels) (name : String) (sp : Span) (v : Nat),
        Par.lookupLabel labels name = some v →
        Res.resolve_label labels (.LabelRef name sp) = .ok (fmt08b v))
  ∧ (∀ (labels : Par.Labels) (s : String),
        Res.resolve_label labels (.Value s) = .ok s) := by
  refine ⟨?_, fmt08b_isBits8, ?_, fun labels s => rfl⟩
  · intro n sp
    refine ⟨rfl, rfl, ?_⟩
    have hlt : (n % 256).toNat < 256 := by
      have h0 : 0 ≤ n % 256 := Int.emod_nonneg _ (by norm_num)
      have h1 : n % 256 < 256 := Int.emod_lt_of_pos _ (by norm_num)
      omega
    exact (fmt08b_isBits8 _).mpr hlt
  · intro labels name sp v hsome
    simp [Res.resolve_label, hsome]

/-- Witness for C7 (amended): the operand value -1 renders to the 8-bit
pattern 11111111; offset 300 renders to more than 8 characters; the
resolver substitutes the rendering of a bound offset. -/
theorem c7_bit_string_amended_witness :
    Par.to_unresolved_binary ⟨.ImmediateValue (.Num (-1)), ⟨0, 0, 2⟩⟩ =
      some (.Value "11111111") ∧
    ¬ isBits8 ((fmt08b 300).data) ∧
    Res.resolve_label [("far", 300)] (.LabelRef "far" ⟨0, 0, 4⟩) =
      .ok (fmt08b 300) := by
  have h1 := c7_bit_string_amended.1 (-1) ⟨0, 0, 2⟩
  have h2 := c7_bit_string_amended.2.1 300
  have h3 := c7_bit_string_amended.2.2.1 [("far", 300)] "far" ⟨0, 0, 4⟩ 300
    (by decide)
  refine ⟨?_, ?_, h3⟩
  · rw [h1.1]; decide
  · intro h
    have := h2.mp h
    omega

/-- Every error the scanner loop emits is an `UnknownToken`. -/
theorem scanLine_kinds (ps : List (Lex.TokenType × Lex.Matcher)) (i : Nat) :
    ∀ fuel acc s, ∀ e ∈ (Lex.scanLine ps i fuel acc s).2,
      e.kind = Lex.ErrKind.UnknownToken := by
  intro fuel
  induction fuel with
  | zero => intro acc s e he; simp [Lex.scanLine] at he
  | succ fuel ih =>
    intro acc s e he
    cases s with
    | nil => simp [Lex.scanLine] at he
    | cons c cs =>
      simp only [Lex.scanLine] at he
      split at he
      · exact ih _ _ e he
      · simp only [List.mem_cons] at he
        rcases he with rfl | he
        · rfl
        · exact ih _ _ e he

theorem tokenizeLine_kinds (ps : List (Lex.TokenType × Lex.Matcher)) (i : Nat)
    (line : List Char) :
    ∀ e ∈ (Lex.tokenizeLine ps i line).2, e.kind = Lex.ErrKind.UnknownToken := by
  intro e he
  exact scanLine_kinds ps i _ _ _ e he

/-- The error list of the per-line fold is the in-order concatenation of
each line's errors: no line stops the scan of the following ones. -/
theorem tokenizeAux_errors (ps : List (Lex.TokenType × Lex.Matcher)) :
    ∀ (ls : List (List Char)) (i : Nat),
      (Lex.tokenizeAux ps i ls).2 =
        (List.enumFrom i ls).flatMap (fun p => Lex.lineErrors ps p.1 p.2) := by
  intro ls
  induction ls with
  | nil => intro i; simp [Lex.tokenizeAux]
  | cons l rest ih =>
    intro i
    simp [Lex.tokenizeAux, Lex.lineErrors, List.enumFrom, ih]

theorem tokenizeAux_kinds (ps : List (Lex.TokenType × Lex.Matcher)) :
    ∀ (ls : List (List Char)) (i : Nat),
      ∀ e ∈ (Lex.tokenizeAux ps i ls).2, e.kind = Lex.ErrKind.UnknownToken := by
  intro ls
  induction ls with
  | nil => intro i e he; simp [Lex.tokenizeAux] at he
  | cons l rest ih =>
    intro i e he
    simp only [Lex.tokenizeAux, List.mem_append] at he
    rcases he with he | he
    · exact tokenizeLine_kinds ps i l e he
    · exact ih _ e he

/-- CLAIM C6: `tokenize` returns an error result exactly when the
line-by-line scan of the whole input collected at least one error; the
error result is that full collection — one span-tagged `UnknownToken`
error for each unrecognizable chunk of every line (errors from every line
are concatenated in order, so lexing continues past each error instead of
stopping at the first). -/
theorem c6_lexer_error_aggregation (ps : List (Lex.TokenType × Lex.Matcher))
    (input : List Char) :
    ((Lex.tokenize ps input).isOk ↔ Lex.lexErrors ps input = [])
  ∧ (∀ es, Lex.tokenize ps input = .error es →
      es = Lex.lexErrors ps input ∧ es ≠ [] ∧
      ∀ e ∈ es, e.kind = Lex.ErrKind.UnknownToken) := by
  have hagg : Lex.lexErrors ps input =
      (Lex.tokenizeAux ps 0 (Lex.splitLines input)).2 := by
    rw [Lex.lexErrors, tokenizeAux_errors]
    rfl
  constructor
  · rw [hagg]
    unfold Lex.tokenize
    by_cases h : (Lex.tokenizeAux ps 0 (Lex.splitLines input)).2.isEmpty <;>
      simp_all [List.isEmpty_iff, Except.isOk, Except.toBool]
  · intro es hes
    unfold Lex.tokenize at hes
    by_cases h : (Lex.tokenizeAux ps 0 (Lex.splitLines input)).2.isEmpty
    · simp [h] at hes
    · simp only [h, if_false] at hes
      cases hes
      refine ⟨hagg.symm, by simpa [List.isEmpty_iff] using h, ?_⟩
      exact tokenizeAux_kinds ps _ 0

/-- Witness for C6 on the real pattern table: the line `INVALID A, 42`
contains two unrecognizable chunks, and `tokenize` collects both
`UnknownToken` errors (it does not stop at the first). -/
theorem c6_lexer_error_aggregation_witness :
    Lex.tokenize Lex.create_patterns ("INVALID A, 42".data) =
      .error [⟨.UnknownToken, ⟨0, 0, 7⟩⟩, ⟨.UnknownToken, ⟨0, 8, 10⟩⟩] ∧
    Lex.lexErrors Lex.create_patterns ("INVALID A, 42".data) =
      [⟨.UnknownToken, ⟨0, 0, 7⟩⟩, ⟨.UnknownToken, ⟨0, 8, 10⟩⟩] := by
  have h := (c6_lexer_error_aggregation Lex.create_patterns
      ("INVALID A, 42".data)).2
    [⟨.UnknownToken, ⟨0, 0, 7⟩⟩, ⟨.UnknownToken, ⟨0, 8, 10⟩⟩] (by decide)
  exact ⟨by decide, h.1.symm⟩

/-- The ten decimal digit characters. -/
def decimalDigits : List Char :=
  ['0', '1', '2', '3', '4', '5', '6', '7', '8', '9']

/-- Decimal value of a digit string, most significant digit first. -/
def decimalValue (s : List Char) : Nat :=
  s.foldl (fun a c => 10 * a + (c.toNat - 48)) 0

theorem digitValue10_of_mem (c : Char) (hc : c ∈ decimalDigits) :
    Par.digitValue 10 c = some (c.toNat - 48) := by
  fin_cases hc <;> decide

theorem parseNatDigitsAux10 :
    ∀ (s : List Char) (acc : Nat), (∀ c ∈ s, c ∈ decimalDigits) →
      Par.parseNatDigitsAux 10 s acc =
        some (s.foldl (fun a c => 10 * a + (c.toNat - 48)) acc) := by
  intro s
  induction s with
  | nil => intro acc _; rfl
  | cons c rest ih =>
    intro acc hd
    have hc := digitValue10_of_mem c (hd c (List.mem_cons_self c rest))
    simp only [Par.parseNatDigitsAux, hc, List.foldl_cons]
    exact ih _ (fun x hx => hd x (List.mem_cons_of_mem c hx))

theorem parseNatDigits10 (s : List Char) (hne : s ≠ [])
    (hd : ∀ c ∈ s, c ∈ decimalDigits) :
    Par.parseNatDigits 10 s = some (decimalValue s) := by
  have : s.isEmpty = false := by
    cases s
    · exact absurd rfl hne
    · rfl
  simp only [Par.parseNatDigits, this, Bool.false_eq_true, if_false]
  exact parseNatDigitsAux10 s 0 hd

/-- A digit string cannot start with one of the radix prefixes 0x, 0b,
0o, since the prefix letter is not a digit. -/
theorem radix_prefix_false (p : Char) (hp : p ∉ decimalDigits)
    (s : List Char) (hd : ∀ c ∈ s, c ∈ decimalDigits) :
    (['0', p].isPrefixOf s) = false := by
  cases s with
  | nil => rfl
  | cons c rest =>
    cases rest with
    | nil => simp [List.isPrefixOf]
    | cons c2 r2 =>
      have hc2 : c2 ∈ decimalDigits := hd c2 (by simp)
      have hne : (p == c2) = false := by
        refine beq_eq_false_iff_ne.mpr ?_
        intro h
        exact hp (h ▸ hc2)
      simp [List.isPrefixOf, hne]

/-- On an unsigned digit string, the i8 parser returns the decimal value
when it is at most 127 and a parse error otherwise (positive overflow). -/
theorem fromStrRadix10_digits (c : Char) (rest : List Char)
    (hc : c ∈ decimalDigits) :
    Par.fromStrRadixI8 10 (c :: rest) =
      (match Par.parseNatDigits 10 (c :: rest) with
       | none => .error .NotANumber
       | some n => if n ≤ 127 then .ok (n : Int) else .error .NotANumber) := by
  fin_cases hc <;> rfl

/-- CLAIM C10: `parse_number` strips the minus sign, parses the magnitude
as a signed 8-bit integer, and negates afterwards — so a negative decimal
literal succeeds precisely when its magnitude is at most 127, even though
magnitude 128 (the literal -128) is representable in one byte. -/
theorem c10_negative_literal (ds : List Char) (hne : ds ≠ [])
    (hd : ∀ c ∈ ds, c ∈ decimalDigits) :
    Par.parse_number ('-' :: ds) =
      (if decimalValue ds ≤ 127 then .ok (-(decimalValue ds : Int))
       else .error .NotANumber) := by
  cases ds with
  | nil => exact absurd rfl hne
  | cons c rest =>
    have hx := radix_prefix_false 'x' (by decide) (c :: rest) hd
    have hb := radix_prefix_false 'b' (by decide) (c :: rest) hd
    have ho := radix_prefix_false 'o' (by decide) (c :: rest) hd
    have hfrs := fromStrRadix10_digits c rest (hd c (List.mem_cons_self c rest))
    have hpn : Par.parseNatDigits 10 (c :: rest) = some (decimalValue (c :: rest)) :=
      parseNatDigits10 _ (by simp) hd
    simp only [Par.parse_number, if_true, List.tail_cons, hx, hb, ho,
      Bool.false_eq_true, if_false]
    rw [hfrs, hpn]
    by_cases h127 : decimalValue (c :: rest) ≤ 127 <;> simp [h127]

/-- Witness for C10: `parse_number("-128")` fails with the number parse
error while `parse_number("-127")` succeeds, so the boundary sits at
magnitude 127, not 128. -/
theorem c10_negative_literal_witness :
    Par.parse_number ("-128".data) = .error .NotANumber ∧
    Par.parse_number ("-127".data) = .ok (-127) := by
  have h1 := c10_negative_literal ("128".data) (by decide) (by decide)
  have h2 := c10_negative_literal ("127".data) (by decide) (by decide)
  exact ⟨h1.trans (by decide), h2.trans (by decide)⟩

end Assembler
